import Mathlib

/-!
Shallow embedding of the go-logger repository (kimxuanhong/go-logger).

Strings are modelled as lists of characters (`Str`).  The repository has two
logging stacks: a self-contained `StdLogger` (Logger.go) and a logrus-based
pipeline (context.go, formatter.go).  Both are embedded below, together with
models of the Go standard-library string operations they use.
-/

namespace GoLogger

/-- Go strings, modelled as lists of characters. -/
abbrev Str := List Char

/-- Model of Go `strings.ReplaceAll(s, old, new)` for the uses in this
repository: scans `s` left to right, replacing each non-overlapping
occurrence of `old` with `new` and continuing after the replaced segment.
(Go treats an empty `old` specially by inserting `new` between runes; the
repository only ever calls `ReplaceAll` with non-empty `old`, and the guard
below makes the empty case a no-op.) -/
def replaceAll (s old new : Str) : Str :=
  match s with
  | [] => []
  | c :: rest =>
    if h : old ≠ [] ∧ old.isPrefixOf (c :: rest) then
      new ++ replaceAll ((c :: rest).drop old.length) old new
    else
      c :: replaceAll rest old new
termination_by s.length
decreasing_by
  · simp only [List.length_drop, List.length_cons]
    have hpos : 0 < old.length := List.length_pos.mpr h.1
    omega
  · simp

/-- Model of Go `strings.Contains(s, sub)`: `sub` occurs as a contiguous
substring of `s`. -/
def containsSub (sub : Str) : Str → Bool
  | [] => decide (sub = [])
  | c :: rest => sub.isPrefixOf (c :: rest) || containsSub sub rest

/-- Prepends a character onto the first segment of a split result. -/
def splitCons (c : Char) : List Str → List Str
  | [] => [[c]]
  | h :: t => (c :: h) :: t

/-- Model of Go `strings.Split(s, sep)` for a one-character separator (the
repository only splits on `"."`): the list of maximal separator-free
segments; always non-empty. -/
def splitChar (sep : Char) : Str → List Str
  | [] => [[]]
  | c :: rest =>
    if c = sep then [] :: splitChar sep rest
    else splitCons c (splitChar sep rest)

/-- Model of Go `strings.ToLower` (ASCII; the repository only lowers ASCII
configuration strings). -/
def strToLower (s : Str) : Str := s.map Char.toLower

/-- Model of Go `strings.ToUpper` (ASCII; applied to level names). -/
def strToUpper (s : Str) : Str := s.map Char.toUpper

/-- Decimal rendering of a line number, model of Go `fmt.Sprintf("%d", n)`. -/
def natStr (n : Nat) : Str := (Nat.repr n).data

/-- Model of Go `fmt.Sprintf` restricted to the `%s` verb (printf-style
positional substitution; the only verb the repository's call sites use). -/
def sprintfS : Str → List Str → Str
  | [], _ => []
  | '%' :: 's' :: rest, a :: as => a ++ sprintfS rest as
  | c :: rest, as => c :: sprintfS rest as

/-- Model of Go `path.Base`: the last slash-separated element of the path,
after dropping trailing slashes; `"."` for the empty path, `"/"` for a path
of only slashes. -/
def pathBase (p : Str) : Str :=
  if p = [] then ['.']
  else
    let trimmed := (p.reverse.dropWhile (fun c => c = '/')).reverse
    if trimmed = [] then ['/']
    else match (splitChar '/' trimmed).getLast? with
      | some seg => seg
      | none => trimmed

/-! ## Context model (context.go; Go `context` package) -/

/-- A Go context key: context.go uses typed string keys
(`contextKey("requestId")` in context.go, `logContextKey("requestID")` in
Logger.go), which compare by dynamic type and value.  Modelled as the pair
of the type's name and the string value. -/
structure CtxKey where
  typeName : Str
  name : Str
deriving DecidableEq

/-- Model of the Go `context.Context` values the repository builds:
`context.Background()` and derived value contexts from `context.WithValue`. -/
inductive Context where
  | background : Context
  | withValue (parent : Context) (key : CtxKey) (val : Str) : Context
deriving DecidableEq

/-- Model of Go `ctx.Value(key)`: a value context answers for its own key
and otherwise delegates to its parent; `Background` carries no values. -/
def Context.Value : Context → CtxKey → Option Str
  | .background, _ => none
  | .withValue parent k v, key => if k = key then some v else parent.Value key

/-- Nesting depth of a context chain (model-level helper). -/
def Context.depth : Context → Nat
  | .background => 0
  | .withValue parent _ _ => parent.depth + 1

/-- The key `requestIDKey = contextKey("requestId")` of context.go. -/
def requestIDKey : CtxKey := ⟨"logger.contextKey".data, "requestId".data⟩

/-- The key `RequestIDKey = logContextKey("requestID")` of Logger.go. -/
def RequestIDKey : CtxKey := ⟨"logger.logContextKey".data, "requestID".data⟩

/-- `InjectRequestID` (context.go): derives a new context carrying the
request ID under `requestIDKey`. -/
def InjectRequestID (ctx : Context) (requestID : Str) : Context :=
  .withValue ctx requestIDKey requestID

/-- `GetRequestID` (context.go): resolves `requestIDKey` on the context
chain, returning `"unknown"` when absent (`fmt.Sprint` of a string value is
the string itself). -/
def GetRequestID (ctx : Context) : Str :=
  match ctx.Value requestIDKey with
  | none => "unknown".data
  | some v => v

/-- True when no request ID was ever injected anywhere on this context
chain (no `withValue` node binds `requestIDKey`). -/
def neverInjected : Context → Bool
  | .background => true
  | .withValue parent k _ => decide (k ≠ requestIDKey) && neverInjected parent

/-! ## logrus entry model (used by formatter.go and context.go) -/

/-- The logrus severity levels this repository uses. -/
inductive Level where
  | debug : Level
  | info : Level
  | warn : Level
  | error : Level
deriving DecidableEq

/-- Model of logrus `Level.String()` (note logrus renders `WarnLevel` as
`"warning"`). -/
def Level.string : Level → Str
  | .debug => "debug".data
  | .info => "info".data
  | .warn => "warning".data
  | .error => "error".data

/-- A point in time.  Go's `time.Time` and its `Format` method are standard
library, external to this repository; the formatted timestamp is modelled
as an opaque pre-rendered string carried by the entry. -/
def Time := Str

/-- Model of the external Go `time.Time.Format`: yields the carried
rendering (the layout argument is consumed by the external library). -/
def Time.Format (t : Time) (layout : Str) : Str :=
  let _ := layout
  t

/-- Model of logrus `Entry.Caller` (`runtime.Frame`): the fields
formatter.go reads. -/
structure CallerFrame where
  File : Str
  Line : Nat
  Function : Str
deriving DecidableEq

/-- Lookup in a logrus `Fields` map (`map[string]interface{}`); values are
modelled by their `fmt.Sprint` rendering, which is the identity on the
string values this repository stores. -/
def dataLookup : List (Str × Str) → Str → Option Str
  | [], _ => none
  | (k, v) :: rest, key => if k = key then some v else dataLookup rest key

/-- Model of a logrus `*Entry`: the fields `DynamicFormatter.Format`
reads. -/
structure Entry where
  Time : Time
  Level : Level
  Message : Str
  Data : List (Str × Str)
  Caller : Option CallerFrame

/-- The `MessageFormater` interface (formatter.go): a message transform. -/
structure MessageFormater where
  Format : Str → Str

/-- `DefaultMessageFormater` (formatter.go): the identity transform. -/
def DefaultMessageFormater : MessageFormater := ⟨fun message => message⟩

/-- The `FunctionNameFormatter` interface (formatter.go): a transform of
the fully-qualified caller name. -/
structure FunctionNameFormatter where
  Format : Str → Str

/-- `DefaultFunctionNameFormatter` (formatter.go): splits the full name on
`"."` and keeps the last segment (the Go code indexes `parts[len(parts)-1]`
when `len(parts) > 0` and otherwise returns the input unchanged). -/
def DefaultFunctionNameFormatter : FunctionNameFormatter :=
  ⟨fun fullName =>
    let parts := splitChar '.' fullName
    match parts.getLast? with
    | some p => p
    | none => fullName⟩

/-- `DynamicFormatter` (formatter.go).  The two pluggable hook interfaces
are carried as their single-method records. -/
structure DynamicFormatter where
  Pattern : Str
  TimestampFormat : Str
  MsgFormatter : MessageFormater
  FunctionNameFormatter : FunctionNameFormatter

/-- The pattern-expansion step of `DynamicFormatter.Format` (formatter.go):
resolves each record field, then substitutes the recognized placeholder
tokens into the pattern by sequential literal replacement — `%timestamp%`,
`%level%`, `%logger%`, `%file%`, `%line%`, `%function%`, `%requestId%`, and
finally `%message%`.  This is the value the Go code names `out` just before
`return []byte(out + "\n"), nil`. -/
def DynamicFormatter.expand (f : DynamicFormatter) (entry : Entry) : Str :=
  let timestamp := entry.Time.Format f.TimestampFormat
  let level := strToUpper entry.Level.string
  let loggerName :=
    match dataLookup entry.Data "logger".data with
    | none => "main".data
    | some v => v
  let message := f.MsgFormatter.Format entry.Message
  let fileLineFn :=
    match entry.Caller with
    | none => ("???".data, 0, "???".data)
    | some caller =>
      (pathBase caller.File, caller.Line,
        f.FunctionNameFormatter.Format caller.Function)
  let requestID :=
    match dataLookup entry.Data "requestId".data with
    | some rid => rid
    | none => "unknown".data
  let out := f.Pattern
  let out := replaceAll out "%timestamp%".data timestamp
  let out := replaceAll out "%level%".data level
  let out := replaceAll out "%logger%".data loggerName
  let out := replaceAll out "%file%".data fileLineFn.1
  let out := replaceAll out "%line%".data (natStr fileLineFn.2.1)
  let out := replaceAll out "%function%".data fileLineFn.2.2
  let out := replaceAll out "%requestId%".data requestID
  let out := replaceAll out "%message%".data message
  out

/-- `DynamicFormatter.Format` (formatter.go): the expanded pattern with a
newline appended.  The Go function returns `([]byte, error)` and never
produces a non-nil error; the error side is modelled by `Except`. -/
def DynamicFormatter.Format (f : DynamicFormatter) (entry : Entry) :
    Except Str Str :=
  .ok (f.expand entry ++ ['\n'])

/-- The recognized placeholder tokens, in the order formatter.go
substitutes them. -/
def recognizedTokens : List Str :=
  ["%timestamp%".data, "%level%".data, "%logger%".data, "%file%".data,
   "%line%".data, "%function%".data, "%requestId%".data, "%message%".data]

/-- `WithContext` (context.go): resolves the request ID from the context
and returns `Log.WithFields(logrus.Fields{"requestId": requestID})` — an
entry carrying that single field.  Modelled as the `Data` field set of the
returned entry. -/
def WithContext (ctx : Context) : List (Str × Str) :=
  [("requestId".data, GetRequestID ctx)]

/-- Building the logrus entry for a log call (external logrus behaviour):
the entry carries the field set accumulated by `WithFields`/`WithField`,
the call's level and message, and the ambient time and caller frame. -/
def entryOf (data : List (Str × Str)) (lvl : Level) (msg : Str)
    (t : Time) (caller : Option CallerFrame) : Entry :=
  ⟨t, lvl, msg, data, caller⟩

/-! ## StdLogger model (Logger.go) -/

/-- `LogLevel` (Logger.go): the severity of a log call. -/
inductive LogLevel where
  | DebugLevel : LogLevel
  | InfoLevel : LogLevel
  | WarnLevel : LogLevel
  | ErrorLevel : LogLevel
deriving DecidableEq

/-- The integer value of a `LogLevel` (Logger.go declares the levels with
`iota + 1`, so Debug = 1, Info = 2, Warn = 3, Error = 4). -/
def LogLevel.toNat : LogLevel → Nat
  | .DebugLevel => 1
  | .InfoLevel => 2
  | .WarnLevel => 3
  | .ErrorLevel => 4

/-- `parseLogLevel` (Logger.go): lower-cases the configured string and maps
the four recognized names to their levels, defaulting to `InfoLevel`. -/
def parseLogLevel (level : Str) : LogLevel :=
  let l := strToLower level
  if l = "debug".data then .DebugLevel
  else if l = "info".data then .InfoLevel
  else if l = "warn".data then .WarnLevel
  else if l = "error".data then .ErrorLevel
  else .InfoLevel

/-- `StdLogger` (Logger.go).  The `*log.Logger` field is an output sink;
its observable behaviour (flag-generated line header, newline completion)
is modelled by `Runtime` and `logWrite` below. -/
structure StdLogger where
  currentLevel : LogLevel
  format : Str

/-- `StdLogger.shouldLog` (Logger.go): `level >= l.currentLevel` on the
integer values of the levels. -/
def StdLogger.shouldLog (l : StdLogger) (level : LogLevel) : Bool :=
  decide (l.currentLevel.toNat ≤ level.toNat)

/-- The ambient effects a `StdLogger.log` call consumes: the results of
`runtime.Caller(3)` (file, line), `runtime.Caller(2)` (pc → function name,
ok flag), `time.Now()` pre-rendered in RFC3339, and the header the
underlying `log.Logger` prepends from its flags. -/
structure Runtime where
  callerFile : Str
  callerLine : Nat
  callerFuncName : Str
  callerOk : Bool
  now : Str
  hdr : Str

/-- The Go panic raised by calling a method on a nil interface value. -/
def nilPointerPanic : Str :=
  "runtime error: invalid memory address or nil pointer dereference".data

/-- Rendering of a `fmt` `%v` verb on the `interface{}` request-ID value:
a nil interface prints `<nil>`, a string prints itself. -/
def sprintV : Option Str → Str
  | none => "<nil>".data
  | some s => s

/-- Quoted JSON string (model of the external `encoding/json` rendering of
a string value; escaping is not modelled — no claim depends on it). -/
def jsonStr (s : Str) : Str := '"' :: s ++ ['"']

/-- JSON rendering of the request-ID entry value: nil marshals to `null`. -/
def jsonOptStr : Option Str → Str
  | none => "null".data
  | some s => jsonStr s

/-- Modelled from the spec: structured mode emits "one self-contained
structured record per call … serialized as a single-line encoded object".
`encoding/json` is Go standard library, external to this repository; its
output for the entry map of `StdLogger.log` is modelled as the object with
the keys in `json.Marshal`'s sorted-key order. -/
def jsonEntryStr (levelStr now formatted file funcName : Str) (line : Nat)
    (requestID : Option Str) : Str :=
  "\x7b".data
    ++ "\"file\":".data ++ jsonStr file
    ++ ",\"function\":".data ++ jsonStr funcName
    ++ ",\"level\":".data ++ jsonStr levelStr
    ++ ",\"line\":".data ++ natStr line
    ++ ",\"message\":".data ++ jsonStr formatted
    ++ ",\"requestID\":".data ++ jsonOptStr requestID
    ++ ",\"time\":".data ++ jsonStr now
    ++ "\x7d".data

/-- The text-mode line body of `StdLogger.log` (Logger.go): the `Printf`
format `"[%s] %s | file=%s, function=%s, line=%d, requestID=%v | %s"`. -/
def textEntryStr (levelStr now file funcName : Str) (line : Nat)
    (requestID : Option Str) (formatted : Str) : Str :=
  '[' :: strToUpper levelStr ++ "] ".data ++ now
    ++ " | file=".data ++ file
    ++ ", function=".data ++ funcName
    ++ ", line=".data ++ natStr line
    ++ ", requestID=".data ++ sprintV requestID
    ++ " | ".data ++ formatted

/-- Model of the underlying `log.Logger` output step: prepends the header
generated from the logger's flags and completes the line with a newline if
the message does not already end in one. -/
def logWrite (rt : Runtime) (s : Str) : Str :=
  rt.hdr ++ s ++ (if s.getLast? = some '\n' then [] else ['\n'])

/-- `StdLogger.log` (Logger.go).  The call either returns without output
(level gated), emits one written line, or — when the context argument is
nil and the gate passes — panics at `ctx.Value(RequestIDKey)`, since
calling a method on a nil `context.Context` interface dereferences a nil
pointer.  `Except.error` models the Go panic; `Option` models whether a
line was emitted. -/
def StdLogger.log (l : StdLogger) (level : LogLevel) (levelStr msg : Str)
    (ctx : Option Context) (args : List Str) (rt : Runtime) :
    Except Str (Option Str) :=
  if !l.shouldLog level then .ok none
  else
    let formatted := sprintfS msg args
    let file := rt.callerFile
    let line := rt.callerLine
    let funcName := if rt.callerOk then rt.callerFuncName else "unknown".data
    match ctx with
    | none => .error nilPointerPanic
    | some c =>
      let requestID := c.Value RequestIDKey
      if l.format = "json".data then
        .ok (some (logWrite rt
          (jsonEntryStr levelStr rt.now formatted file funcName line requestID)))
      else
        .ok (some (logWrite rt
          (textEntryStr levelStr rt.now file funcName line requestID formatted)))

/-- `StdLogger.Debug` (Logger.go): logs at `DebugLevel` with a nil
context. -/
def StdLogger.Debug (l : StdLogger) (msg : Str) (args : List Str)
    (rt : Runtime) : Except Str (Option Str) :=
  l.log .DebugLevel "debug".data msg none args rt

/-- `StdLogger.Info` (Logger.go): logs at `InfoLevel` with a nil
context. -/
def StdLogger.Info (l : StdLogger) (msg : Str) (args : List Str)
    (rt : Runtime) : Except Str (Option Str) :=
  l.log .InfoLevel "info".data msg none args rt

/-- `StdLogger.Warn` (Logger.go): logs at `WarnLevel` with a nil
context. -/
def StdLogger.Warn (l : StdLogger) (msg : Str) (args : List Str)
    (rt : Runtime) : Except Str (Option Str) :=
  l.log .WarnLevel "warn".data msg none args rt

/-- `StdLogger.Error` (Logger.go): logs at `ErrorLevel` with a nil
context. -/
def StdLogger.Error (l : StdLogger) (msg : Str) (args : List Str)
    (rt : Runtime) : Except Str (Option Str) :=
  l.log .ErrorLevel "error".data msg none args rt

/-- `StdLoggerWithContext` (Logger.go): the wrapper returned by
`StdLogger.WithContext`, sharing the parent logger and binding a context
(the bound context may itself be nil if the caller passed nil). -/
structure StdLoggerWithContext where
  parent : StdLogger
  ctx : Option Context

/-- `StdLogger.WithContext` (Logger.go): binds the supplied context. -/
def StdLogger.WithContext (l : StdLogger) (ctx : Option Context) :
    StdLoggerWithContext :=
  ⟨l, ctx⟩

/-- `StdLoggerWithContext.log` (Logger.go): substitutes the bound context
when the per-call context is nil, then delegates. -/
def StdLoggerWithContext.log (l : StdLoggerWithContext) (level : LogLevel)
    (levelStr msg : Str) (ctx : Option Context) (args : List Str)
    (rt : Runtime) : Except Str (Option Str) :=
  let ctx := if ctx = none then l.ctx else ctx
  l.parent.log level levelStr msg ctx args rt

/-- `StdLoggerWithContext.Info` (Logger.go): logs at `InfoLevel` with the
bound context. -/
def StdLoggerWithContext.Info (l : StdLoggerWithContext) (msg : Str)
    (args : List Str) (rt : Runtime) : Except Str (Option Str) :=
  l.log .InfoLevel "info".data msg l.ctx args rt

/-! ## Helper lemmas -/

theorem replaceAll_nil (old new : Str) : replaceAll [] old new = [] := by
  simp [replaceAll]

/-- If the token does not occur in the string, replacement is the
identity. -/
theorem replaceAll_not_contains (s old new : Str)
    (h : containsSub old s = false) : replaceAll s old new = s := by
  induction s with
  | nil => simp [replaceAll]
  | cons c rest ih =>
    simp only [containsSub, Bool.or_eq_false_iff] at h
    have hcond : ¬(old ≠ [] ∧ old.isPrefixOf (c :: rest)) := by
      intro hc
      rw [h.1] at hc
      exact Bool.false_ne_true hc.2
    rw [replaceAll, dif_neg hcond, ih h.2]

/-- Replacing a non-empty token inside exactly itself yields the
replacement. -/
theorem replaceAll_self (old new : Str) (h : old ≠ []) :
    replaceAll old old new = new := by
  obtain ⟨c, rest, rfl⟩ := List.exists_cons_of_ne_nil h
  rw [replaceAll, dif_pos ⟨h, by simp [List.isPrefixOf_iff_prefix]⟩]
  rw [List.drop_length, replaceAll_nil, List.append_nil]

theorem splitChar_ne_nil (sep : Char) (s : Str) : splitChar sep s ≠ [] := by
  cases s with
  | nil => simp [splitChar]
  | cons c rest =>
    simp only [splitChar]
    by_cases hc : c = sep
    · simp [hc]
    · rw [if_neg hc]
      cases hsp : splitChar sep rest <;> simp [splitCons]

/-- A string free of the separator splits into the single segment that is
the whole string. -/
theorem splitChar_not_mem (sep : Char) (s : Str) (h : sep ∉ s) :
    splitChar sep s = [s] := by
  induction s with
  | nil => simp [splitChar]
  | cons c rest ih =>
    have hc : ¬(c = sep) := fun e => h (by simp [e])
    have hrest : sep ∉ rest := fun m => h (List.mem_cons_of_mem _ m)
    simp only [splitChar, if_neg hc, ih hrest, splitCons]

theorem splitChar_cons_self (sep : Char) (rest : Str) :
    splitChar sep (sep :: rest) = [] :: splitChar sep rest := by
  simp [splitChar]

theorem splitChar_cons_ne (sep c : Char) (rest : Str) (hc : ¬c = sep) :
    splitChar sep (c :: rest) = splitCons c (splitChar sep rest) := by
  simp [splitChar, hc]

/-- A string containing the separator splits into at least two
segments. -/
theorem two_le_splitChar_append (sep : Char) (a b : Str) :
    2 ≤ (splitChar sep (a ++ sep :: b)).length := by
  induction a with
  | nil =>
    have hb := List.length_pos.mpr (splitChar_ne_nil sep b)
    rw [List.nil_append, splitChar_cons_self, List.length_cons]
    omega
  | cons c a ih =>
    rw [List.cons_append]
    by_cases hc : c = sep
    · have hb := List.length_pos.mpr (splitChar_ne_nil sep (a ++ sep :: b))
      subst hc
      rw [splitChar_cons_self, List.length_cons]
      omega
    · rw [splitChar_cons_ne sep c _ hc]
      cases hsp : splitChar sep (a ++ sep :: b) with
      | nil => exact absurd hsp (splitChar_ne_nil sep _)
      | cons h t =>
        rw [hsp] at ih
        simp only [List.length_cons] at ih
        simp only [splitCons, List.length_cons]
        omega

/-- The last split segment is determined by the text after the last
separator occurrence. -/
theorem splitChar_append_getLast? (sep : Char) (a b : Str) :
    (splitChar sep (a ++ sep :: b)).getLast? = (splitChar sep b).getLast? := by
  induction a with
  | nil =>
    rw [List.nil_append, splitChar_cons_self]
    cases hsp : splitChar sep b with
    | nil => exact absurd hsp (splitChar_ne_nil sep b)
    | cons h t => rw [List.getLast?_cons_cons]
  | cons c a ih =>
    rw [List.cons_append]
    by_cases hc : c = sep
    · subst hc
      rw [splitChar_cons_self]
      cases hsp : splitChar c (a ++ c :: b) with
      | nil => exact absurd hsp (splitChar_ne_nil c _)
      | cons h t =>
        rw [hsp] at ih
        rw [List.getLast?_cons_cons]
        exact ih
    · rw [splitChar_cons_ne sep c _ hc]
      cases hsp : splitChar sep (a ++ sep :: b) with
      | nil => exact absurd hsp (splitChar_ne_nil sep _)
      | cons h t =>
        have h2 := two_le_splitChar_append sep a b
        rw [hsp] at h2 ih
        simp only [List.length_cons] at h2
        obtain ⟨t1, ts, rfl⟩ : ∃ t1 ts, t = t1 :: ts := by
          cases t with
          | nil => simp at h2
          | cons t1 ts => exact ⟨t1, ts, rfl⟩
        rw [List.getLast?_cons_cons] at ih
        simp only [splitCons]
        rw [List.getLast?_cons_cons]
        exact ih

/-- Deriving a context is not a mutation: the derived context is a new,
distinct value. -/
theorem withValue_ne_self (c : Context) (k : CtxKey) (v : Str) :
    Context.withValue c k v ≠ c := by
  intro h
  have hd := congrArg Context.depth h
  simp only [Context.depth] at hd
  omega

/-- A chain that never had a request ID injected resolves the request-ID
key to nothing. -/
theorem value_requestIDKey_of_neverInjected (c : Context)
    (h : neverInjected c = true) : c.Value requestIDKey = none := by
  induction c with
  | background => rfl
  | withValue parent k v ih =>
    simp only [neverInjected, Bool.and_eq_true, decide_eq_true_eq] at h
    simp only [Context.Value, if_neg h.1, ih h.2]

/-- Injecting then resolving round-trips. -/
theorem getRequestID_inject (c : Context) (r : Str) :
    GetRequestID (InjectRequestID c r) = r := by
  simp [GetRequestID, InjectRequestID, Context.Value]

/-- Formatting is the pattern expansion with a newline appended (this is
the shape of formatter.go's `return []byte(out + "\n"), nil`). -/
theorem Format_eq (f : DynamicFormatter) (e : Entry) :
    f.Format e = .ok (f.expand e ++ ['\n']) := rfl

/-- Pattern expansion for the pattern `%requestId%` when the entry data
binds a request ID: only the `%requestId%` and the later `%message%`
substitutions can act, so the result is the bound ID with `%message%`
occurrences replaced by the message. -/
theorem expand_requestId_pattern (ts : Str) (mf : MessageFormater)
    (ff : FunctionNameFormatter) (e : Entry) (rid : Str)
    (hdata : dataLookup e.Data "requestId".data = some rid) :
    (DynamicFormatter.mk "%requestId%".data ts mf ff).expand e
      = replaceAll rid "%message%".data (mf.Format e.Message) := by
  simp only [DynamicFormatter.expand, hdata]
  rw [replaceAll_not_contains "%requestId%".data "%timestamp%".data _ (by decide),
      replaceAll_not_contains "%requestId%".data "%level%".data _ (by decide),
      replaceAll_not_contains "%requestId%".data "%logger%".data _ (by decide),
      replaceAll_not_contains "%requestId%".data "%file%".data _ (by decide),
      replaceAll_not_contains "%requestId%".data "%line%".data _ (by decide),
      replaceAll_not_contains "%requestId%".data "%function%".data _ (by decide),
      replaceAll_self "%requestId%".data _ (by decide)]

/-- Pattern expansion for the pattern `%requestId%` when the entry data
binds no request ID: the sentinel `unknown` is substituted (and `unknown`
contains no `%message%` token, so the final substitution is inert). -/
theorem expand_requestId_pattern_unbound (ts : Str) (mf : MessageFormater)
    (ff : FunctionNameFormatter) (e : Entry)
    (hdata : dataLookup e.Data "requestId".data = none) :
    (DynamicFormatter.mk "%requestId%".data ts mf ff).expand e
      = "unknown".data := by
  simp only [DynamicFormatter.expand, hdata]
  rw [replaceAll_not_contains "%requestId%".data "%timestamp%".data _ (by decide),
      replaceAll_not_contains "%requestId%".data "%level%".data _ (by decide),
      replaceAll_not_contains "%requestId%".data "%logger%".data _ (by decide),
      replaceAll_not_contains "%requestId%".data "%file%".data _ (by decide),
      replaceAll_not_contains "%requestId%".data "%line%".data _ (by decide),
      replaceAll_not_contains "%requestId%".data "%function%".data _ (by decide),
      replaceAll_self "%requestId%".data _ (by decide),
      replaceAll_not_contains "unknown".data "%message%".data _ (by decide)]

/-- Pattern expansion for the pattern `%message%` with the default message
hook: every earlier substitution is inert on this pattern, and the final
step substitutes the message itself — whatever tokens the message text may
contain. -/
theorem expand_message_pattern (ts : Str) (ff : FunctionNameFormatter)
    (e : Entry) :
    (DynamicFormatter.mk "%message%".data ts DefaultMessageFormater ff).expand e
      = e.Message := by
  simp only [DynamicFormatter.expand]
  rw [replaceAll_not_contains "%message%".data "%timestamp%".data _ (by decide),
      replaceAll_not_contains "%message%".data "%level%".data _ (by decide),
      replaceAll_not_contains "%message%".data "%logger%".data _ (by decide),
      replaceAll_not_contains "%message%".data "%file%".data _ (by decide),
      replaceAll_not_contains "%message%".data "%line%".data _ (by decide),
      replaceAll_not_contains "%message%".data "%function%".data _ (by decide),
      replaceAll_not_contains "%message%".data "%requestId%".data _ (by decide),
      replaceAll_self "%message%".data _ (by decide)]
  rfl

/-! ## Claim theorems -/

/-- C1: a log call at severity S is emitted iff S ≥ M for the configured
minimum M, under the total order Debug < Info < Warn < Error: `shouldLog`
is true exactly when S's integer value is at least M's, the level integers
are strictly increasing in the order Debug, Info, Warn, Error, and
`StdLogger.log` emits an output line exactly when the gate passes. -/
theorem c1_level_gate_emission (S M : LogLevel) (fmt levelStr msg : Str)
    (c : Context) (args : List Str) (rt : Runtime) :
    ((StdLogger.mk M fmt).shouldLog S = true ↔ M.toNat ≤ S.toNat)
    ∧ ((∃ out, (StdLogger.mk M fmt).log S levelStr msg (some c) args rt
          = .ok (some out)) ↔ M.toNat ≤ S.toNat)
    ∧ (LogLevel.DebugLevel.toNat < LogLevel.InfoLevel.toNat
        ∧ LogLevel.InfoLevel.toNat < LogLevel.WarnLevel.toNat
        ∧ LogLevel.WarnLevel.toNat < LogLevel.ErrorLevel.toNat) := by
  refine ⟨by simp [StdLogger.shouldLog], ?_, by decide⟩
  by_cases hM : M.toNat ≤ S.toNat
  · rw [iff_true_intro hM, iff_true]
    simp only [StdLogger.log, StdLogger.shouldLog, decide_eq_true hM]
    by_cases hf : fmt = "json".data <;> simp [hf]
  · rw [iff_false_intro hM, iff_false]
    rintro ⟨out, hout⟩
    simp [StdLogger.log, StdLogger.shouldLog, hM] at hout

/-- C2: contrary to the claim, a log call on a plain `StdLogger` that was
never bound to a context does not always complete cleanly: `StdLogger.Info`
passes a nil context into `log`, which — whenever the level gate passes —
calls `ctx.Value(RequestIDKey)` on that nil `context.Context` interface and
panics with a nil-pointer dereference.  This theorem evaluates the model at
the failing input (default Info minimum level, text format). -/
theorem c2_plain_info_nil_context_panics (msg : Str) (args : List Str)
    (rt : Runtime) :
    (StdLogger.mk .InfoLevel "text".data).Info msg args rt
      = .error nilPointerPanic := by
  simp [StdLogger.Info, StdLogger.log, StdLogger.shouldLog, LogLevel.toNat]

/-- C5: `InjectRequestID` returns a derived context distinct from its
input (no mutation — the input chain keeps resolving as before, as the
shadowing conjunct shows), resolving after injecting round-trips to the
injected ID, and `GetRequestID` on a chain where no ID was ever injected
yields the sentinel `"unknown"`. -/
theorem c5_inject_resolve_roundtrip (c : Context) (r : Str) :
    GetRequestID (InjectRequestID c r) = r
    ∧ InjectRequestID c r ≠ c
    ∧ (∀ r2, GetRequestID (InjectRequestID (InjectRequestID c r2) r) = r
        ∧ GetRequestID (InjectRequestID c r2) = r2)
    ∧ (neverInjected c = true → GetRequestID c = "unknown".data) := by
  refine ⟨getRequestID_inject c r, withValue_ne_self c _ _,
    fun r2 => ⟨getRequestID_inject _ _, getRequestID_inject _ _⟩, fun h => ?_⟩
  simp [GetRequestID, value_requestIDKey_of_neverInjected c h]

/-- C5 witness: the round-trip and the sentinel evaluated concretely on the
background context and the ID "req-42". -/
theorem c5_witness :
    GetRequestID (InjectRequestID .background "req-42".data) = "req-42".data
    ∧ (neverInjected Context.background = true
        ∧ GetRequestID Context.background = "unknown".data) :=
  ⟨(c5_inject_resolve_roundtrip .background "req-42".data).1,
   by decide,
   (c5_inject_resolve_roundtrip .background "req-42".data).2.2.2 (by decide)⟩

/-- C7: the default Function Name Formatter returns the segment after the
last dot: concretely `pkg.sub.Handler.Process` maps to `Process`; for any
strings `a` and dot-free `b` the input `a ++ "." ++ b` maps to `b`; and a
dot-free string is returned unchanged. -/
theorem c7_default_function_name_formats (a b s : Str)
    (hb : '.' ∉ b) (hs : '.' ∉ s) :
    DefaultFunctionNameFormatter.Format "pkg.sub.Handler.Process".data
        = "Process".data
    ∧ DefaultFunctionNameFormatter.Format (a ++ '.' :: b) = b
    ∧ DefaultFunctionNameFormatter.Format s = s := by
  refine ⟨by decide, ?_, ?_⟩
  · have h1 : (splitChar '.' (a ++ '.' :: b)).getLast? = some b := by
      rw [splitChar_append_getLast?, splitChar_not_mem _ _ hb]
      simp
    simp [DefaultFunctionNameFormatter, h1]
  · have h1 : (splitChar '.' s).getLast? = some s := by
      rw [splitChar_not_mem _ _ hs]
      simp
    simp [DefaultFunctionNameFormatter, h1]

/-- C7 witness: the three conjuncts evaluated on concrete inputs
(`a = "pkg"`, `b = "Process"`, `s = "main"`). -/
theorem c7_witness :
    ('.' ∉ "Process".data ∧ '.' ∉ "main".data)
    ∧ (DefaultFunctionNameFormatter.Format "pkg.sub.Handler.Process".data
          = "Process".data
       ∧ DefaultFunctionNameFormatter.Format ("pkg".data ++ '.' :: "Process".data)
          = "Process".data
       ∧ DefaultFunctionNameFormatter.Format "main".data = "main".data) :=
  ⟨⟨by decide, by decide⟩,
   c7_default_function_name_formats "pkg".data "Process".data "main".data
     (by decide) (by decide)⟩

/-- C8: a configured minimum-level string that is not a recognized level
name (its lower-casing is none of debug/info/warn/error) parses — without
any construction failure — to the default `InfoLevel`. -/
theorem c8_unknown_level_defaults_info (s : Str)
    (h : strToLower s ∉
      ["debug".data, "info".data, "warn".data, "error".data]) :
    parseLogLevel s = .InfoLevel := by
  simp only [List.mem_cons, List.not_mem_nil, or_false, not_or] at h
  obtain ⟨h1, h2, h3, h4⟩ := h
  simp [parseLogLevel, h1, h2, h3, h4]

/-- C8 witness: the unrecognized level string "verbose" parses to Info. -/
theorem c8_witness :
    strToLower "verbose".data ∉
      ["debug".data, "info".data, "warn".data, "error".data]
    ∧ parseLogLevel "verbose".data = .InfoLevel :=
  ⟨by decide, c8_unknown_level_defaults_info "verbose".data (by decide)⟩

/-- C3 counterexample: with the empty pattern, rendering a record whose
message is "hello" emits a bare newline (an empty line), not the message
followed by a newline as the claim states. -/
theorem c3_counterexample :
    (DynamicFormatter.mk [] [] DefaultMessageFormater
        DefaultFunctionNameFormatter).Format
      (Entry.mk [] .info "hello".data [] none) = .ok ['\n']
    ∧ (Except.ok ['\n'] : Except Str Str) ≠ .ok ("hello\n".data) := by
  constructor
  · have hx : (DynamicFormatter.mk [] [] DefaultMessageFormater
        DefaultFunctionNameFormatter).expand
          (Entry.mk [] .info "hello".data [] none) = [] := by
      simp [DynamicFormatter.expand, replaceAll_nil]
    simp only [Format_eq, hx]
    rfl
  · simp

/-- C3 (amended): formatter rendering never errors, and an explicitly
empty pattern renders as exactly a bare newline — an empty line — rather
than the message plus newline; the message field reaches the output only
through a `%message%` token in the (possibly defaulted) pattern. -/
theorem c3_amended_empty_pattern_newline (f : DynamicFormatter) (e : Entry) :
    (∃ out, f.Format e = .ok out)
    ∧ (f.Pattern = [] → f.Format e = .ok ['\n']) := by
  refine ⟨⟨f.expand e ++ ['\n'], rfl⟩, fun hP => ?_⟩
  have hx : f.expand e = [] := by
    simp [DynamicFormatter.expand, hP, replaceAll_nil]
  simp only [Format_eq, hx]
  rfl

/-- C3 witness: the empty-pattern case evaluated on a concrete formatter
and record. -/
theorem c3_witness :
    (DynamicFormatter.mk [] [] DefaultMessageFormater
        DefaultFunctionNameFormatter).Pattern = []
    ∧ (DynamicFormatter.mk [] [] DefaultMessageFormater
        DefaultFunctionNameFormatter).Format
      (Entry.mk [] .info "hello".data [] none) = .ok ['\n'] :=
  ⟨rfl, (c3_amended_empty_pattern_newline _
    (Entry.mk [] .info "hello".data [] none)).2 rfl⟩

/-- C4 counterexample: binding a logger via `WithContext` to a context into
which the ID `"%message%"` was injected and logging `Info("x")` against the
pattern `%requestId%` renders `"x\n"` — the later `%message%` substitution
rewrites the inserted ID — so `%requestId%` is not rendered as exactly the
injected ID. -/
theorem c4_counterexample :
    (DynamicFormatter.mk "%requestId%".data [] DefaultMessageFormater
        DefaultFunctionNameFormatter).Format
      (entryOf (WithContext (InjectRequestID .background "%message%".data))
        .info "x".data [] none) = .ok ("x\n".data)
    ∧ ("x\n".data : Str) ≠ "%message%".data ++ ['\n'] := by
  constructor
  · have hdata : dataLookup
        (entryOf (WithContext (InjectRequestID .background "%message%".data))
          .info "x".data [] none).Data "requestId".data
        = some "%message%".data := by decide
    have hx := expand_requestId_pattern [] DefaultMessageFormater
      DefaultFunctionNameFormatter _ _ hdata
    rw [replaceAll_self "%message%".data _ (by decide)] at hx
    have hmsg : DefaultMessageFormater.Format
        (entryOf (WithContext (InjectRequestID .background "%message%".data))
          .info "x".data [] none).Message = "x".data := rfl
    rw [hmsg] at hx
    simp only [Format_eq, hx]
    rfl
  · decide

/-- C4 (amended): binding via `WithContext` to a context carrying injected
ID r renders the `%requestId%` pattern as exactly r provided r contains no
`%message%` token (the only placeholder substituted after `%requestId%`);
a logger never bound to a context (no request-ID field in the record data)
renders `%requestId%` as the sentinel `unknown`. -/
theorem c4_amended_requestId_render (c : Context) (r ts : Str) (t : Time)
    (caller : Option CallerFrame)
    (h : containsSub "%message%".data r = false) :
    (DynamicFormatter.mk "%requestId%".data ts DefaultMessageFormater
        DefaultFunctionNameFormatter).Format
      (entryOf (WithContext (InjectRequestID c r)) .info "x".data t caller)
        = .ok (r ++ ['\n'])
    ∧ (DynamicFormatter.mk "%requestId%".data ts DefaultMessageFormater
        DefaultFunctionNameFormatter).Format
      (entryOf [] .info "x".data t caller)
        = .ok ("unknown".data ++ ['\n']) := by
  constructor
  · have hdata : dataLookup
        (entryOf (WithContext (InjectRequestID c r)) .info "x".data t
          caller).Data "requestId".data = some r := by
      simp [entryOf, WithContext, getRequestID_inject, dataLookup]
    have hx := expand_requestId_pattern ts DefaultMessageFormater
      DefaultFunctionNameFormatter _ _ hdata
    rw [replaceAll_not_contains r "%message%".data _ h] at hx
    simp only [Format_eq, hx]
  · have hdata : dataLookup
        (entryOf [] .info "x".data t caller).Data "requestId".data
        = none := by simp [entryOf, dataLookup]
    have hx := expand_requestId_pattern_unbound ts DefaultMessageFormater
      DefaultFunctionNameFormatter _ hdata
    simp only [Format_eq, hx]

/-- C4 witness: the amended rendering evaluated with the concrete injected
ID "req-42" on the background context. -/
theorem c4_witness :
    containsSub "%message%".data "req-42".data = false
    ∧ (DynamicFormatter.mk "%requestId%".data [] DefaultMessageFormater
        DefaultFunctionNameFormatter).Format
      (entryOf (WithContext (InjectRequestID .background "req-42".data))
        .info "x".data [] none) = .ok ("req-42".data ++ ['\n']) :=
  ⟨by decide,
   (c4_amended_requestId_render .background "req-42".data [] [] none
     (by decide)).1⟩

/-- C6: a pattern free of every recognized placeholder token — in
particular one made of unrecognized tokens such as `%unknown%` — renders
verbatim with the newline appended, and no error is reported. -/
theorem c6_unrecognized_tokens_verbatim (f : DynamicFormatter) (e : Entry)
    (h : ∀ tok ∈ recognizedTokens, containsSub tok f.Pattern = false) :
    f.Format e = .ok (f.Pattern ++ ['\n']) := by
  have h1 := h "%timestamp%".data (by decide)
  have h2 := h "%level%".data (by decide)
  have h3 := h "%logger%".data (by decide)
  have h4 := h "%file%".data (by decide)
  have h5 := h "%line%".data (by decide)
  have h6 := h "%function%".data (by decide)
  have h7 := h "%requestId%".data (by decide)
  have h8 := h "%message%".data (by decide)
  have hx : f.expand e = f.Pattern := by
    simp only [DynamicFormatter.expand]
    rw [replaceAll_not_contains _ _ _ h1,
        replaceAll_not_contains _ _ _ h2,
        replaceAll_not_contains _ _ _ h3,
        replaceAll_not_contains _ _ _ h4,
        replaceAll_not_contains _ _ _ h5,
        replaceAll_not_contains _ _ _ h6,
        replaceAll_not_contains _ _ _ h7,
        replaceAll_not_contains _ _ _ h8]
  simp only [Format_eq, hx]

/-- C6 witness: the pattern `%unknown%` renders verbatim on a concrete
record. -/
theorem c6_witness :
    (∀ tok ∈ recognizedTokens,
      containsSub tok ("%unknown%".data) = false)
    ∧ (DynamicFormatter.mk "%unknown%".data [] DefaultMessageFormater
        DefaultFunctionNameFormatter).Format
      (Entry.mk [] .info "hi".data [] none)
        = .ok ("%unknown%".data ++ ['\n']) :=
  ⟨by decide,
   c6_unrecognized_tokens_verbatim
     (DynamicFormatter.mk "%unknown%".data [] DefaultMessageFormater
       DefaultFunctionNameFormatter)
     (Entry.mk [] .info "hi".data [] none) (by decide)⟩

/-- C9 counterexample: a message containing a newline renders, against the
pattern `%message%`, to output containing two newline characters — not
"exactly one line terminated by a single trailing newline" as the claim
states. -/
theorem c9_counterexample :
    (DynamicFormatter.mk "%message%".data [] DefaultMessageFormater
        DefaultFunctionNameFormatter).Format
      (Entry.mk [] .info "a\nb".data [] none) = .ok ("a\nb\n".data)
    ∧ List.count '\n' ("a\nb\n".data) ≠ 1 := by
  constructor
  · have hx := expand_message_pattern []
      DefaultFunctionNameFormatter (Entry.mk [] .info "a\nb".data [] none)
    simp [DynamicFormatter.Format, hx]
  · decide

/-- C9 (amended): pattern-mode rendering always appends exactly one
newline to the expanded template, and the rendered output contains exactly
one newline — is exactly one line — whenever the expanded template itself
contains none (a record field or pattern containing a newline yields a
multi-line record). -/
theorem c9_amended_trailing_newline (f : DynamicFormatter) (e : Entry) :
    f.Format e = .ok (f.expand e ++ ['\n'])
    ∧ (List.count '\n' (f.expand e) = 0
        → List.count '\n' (f.expand e ++ ['\n']) = 1) := by
  refine ⟨rfl, fun h => ?_⟩
  rw [List.count_append, h, Nat.zero_add]
  decide

/-- C9 witness: the single-newline conclusion evaluated on the empty
pattern and a concrete record. -/
theorem c9_witness :
    List.count '\n'
      ((DynamicFormatter.mk [] [] DefaultMessageFormater
          DefaultFunctionNameFormatter).expand
        (Entry.mk [] .info "hi".data [] none)) = 0
    ∧ List.count '\n'
      ((DynamicFormatter.mk [] [] DefaultMessageFormater
          DefaultFunctionNameFormatter).expand
        (Entry.mk [] .info "hi".data [] none) ++ ['\n']) = 1 :=
  ⟨by simp [DynamicFormatter.expand, replaceAll_nil],
   (c9_amended_trailing_newline _ _).2
     (by simp [DynamicFormatter.expand, replaceAll_nil])⟩

/-- C10: the `%message%` substitution comes last, so a message containing a
recognized token renders verbatim (for every record, the `%message%`
pattern renders as exactly the message, tokens and all), while a request
ID whose value is the literal text `%message%` is re-substituted by the
later message-replacement step. -/
theorem c10_message_substituted_last (e : Entry) (ts : Str)
    (ff : FunctionNameFormatter) :
    (DynamicFormatter.mk "%message%".data ts DefaultMessageFormater
        ff).Format e = .ok (e.Message ++ ['\n'])
    ∧ (DynamicFormatter.mk "%requestId%".data [] DefaultMessageFormater
        DefaultFunctionNameFormatter).Format
      (entryOf [("requestId".data, "%message%".data)] .info "x".data []
        none) = .ok ("x\n".data) := by
  constructor
  · have hx := expand_message_pattern ts ff e
    simp only [Format_eq, hx]
  · have hdata : dataLookup
        (entryOf [("requestId".data, "%message%".data)] .info "x".data []
          none).Data "requestId".data = some "%message%".data := by decide
    have hx := expand_requestId_pattern [] DefaultMessageFormater
      DefaultFunctionNameFormatter _ _ hdata
    rw [replaceAll_self "%message%".data _ (by decide)] at hx
    have hmsg : DefaultMessageFormater.Format
        (entryOf [("requestId".data, "%message%".data)] .info "x".data []
          none).Message = "x".data := rfl
    rw [hmsg] at hx
    simp only [Format_eq, hx]
    rfl

end GoLogger
